import Mathlib

/-!
Verification of the Wine-prefix configuration manager
(`lutris/util/wine/prefix.py`, class `WinePrefixManager`).

The embedding models:
  * paths as `String`, with `os.path.join` / `os.path.expanduser` translated
    directly from their CPython semantics (only the forms the source exercises:
    `expanduser` handles `""`, `"~"` and `"~/..."`; the `~user` form is not used
    by the source and is not modeled);
  * the filesystem as a finite association list from absolute paths to entries
    (`symlink target` or `dir files`, where `files` lists the user data stored
    in that directory).  Regular files at guest folder paths are not modeled:
    the source's `os.symlink` would raise `FileExistsError` on them.  Fallible
    `os` calls (`rename` onto an occupied target, `symlink`/`makedirs` on an
    existing path) raise in Python, aborting the operation with the filesystem
    as it stands; they are modeled as leaving the filesystem unchanged;
  * the two marker files `.lutris_destkop_integration` and
    `.lutris_dpi_assignment` by their contents (`Option String`), since the
    source accesses them only through `open`/`os.path.isfile`/`os.remove`;
  * the registry as two hives (`user.reg`, `system.reg`), each an association
    list from (key path, value name) to a value.  The hive store itself
    (`WineRegistry`, imported from `lutris.util.wine.registry`, not in src/) is
    modeled from the spec's collaborator contract: `query` returns the stored
    value or none, `set_value` overwrites it, `save` persists (the embedding
    keeps a single persistent state, so `save` is implicit);
  * `system.path_exists` and `get_xdg_entry` (imported from other lutris
    modules, not in src/) are modeled from the spec: a plain existence check,
    and an injected host special-folder discovery capability.
-/

/-- Python `str.startswith`: character-level test that `p` is a leading
substring of `s`. -/
def strStartsWith (s p : String) : Bool :=
  p.data.isPrefixOf s.data

/-- Python `str.endswith`, used by `os.path.join`'s separator handling. -/
def strEndsWith (s p : String) : Bool :=
  p.data.isSuffixOf s.data

/-- Python slicing `s[n:]` (byte/char drop; all strings here are ASCII). -/
def strDropLeft (s : String) (n : Nat) : String :=
  ⟨s.data.drop n⟩

/-- CPython `os.path.join(a, b)` (posixpath): an absolute second component
replaces the first; otherwise the parts are glued with `/` unless `a` is empty
or already ends in `/`. -/
def os_path_join (a b : String) : String :=
  if strStartsWith b "/" then b
  else if a = "" then b
  else if strEndsWith a "/" then a ++ b
  else a ++ "/" ++ b

/-- CPython `os.path.expanduser` with the current home directory `home`:
a leading `~` (alone or followed by `/`) is replaced by `home`; anything else
is returned unchanged.  (`~user` forms are not used by the source.) -/
def os_path_expanduser (home s : String) : String :=
  if s = "~" then home
  else if strStartsWith s "~/" then home ++ strDropLeft s 1
  else s

/-- Python `a or b` on an optional string, where both `None` and `""` are
falsy: used for `default_user or os.getenv("USER") or "lutrisuser"`. -/
def orFalsy (a : Option String) (b : String) : String :=
  match a with
  | some s => if s = "" then b else s
  | none => b

/-- Python `int(s)` on the decimal strings this subsystem writes (an optional
leading `-` followed by digits).  Python's `int` additionally strips
whitespace and accepts `+`/underscores; those spellings are never produced by
`set_dpi`, which writes `str(dpi)`, and are not modeled. -/
def pyToInt (s : String) : Option Int :=
  match s.data with
  | '-' :: ds =>
      if ds ≠ [] ∧ ds.all Char.isDigit then
        some (-(ds.foldl (fun a c => a * 10 + (c.toNat - '0'.toNat)) 0 : Nat))
      else none
  | ds =>
      if ds ≠ [] ∧ ds.all Char.isDigit then
        some ((ds.foldl (fun a c => a * 10 + (c.toNat - '0'.toNat)) 0 : Nat))
      else none

/-- Python `folder[folder.rfind("\\") + 1:]`: the part of `s` after its last
backslash (the whole of `s` when it has none, matching `rfind` = -1). -/
def lastComponentBackslash (s : String) : String :=
  ⟨(s.data.reverse.takeWhile (fun c => c ≠ '\\')).reverse⟩

/-- A filesystem entry: a symbolic link with its target, or a directory
holding user data files (named by the strings in `files`). -/
inductive Entry where
  | symlink (target : String)
  | dir (files : List String)
deriving DecidableEq, Repr

/-- The filesystem: a finite map from absolute paths to entries, as an
association list (well-formed states have no duplicate paths, `FS.WF`). -/
abbrev FS := List (String × Entry)

/-- Look up the entry at path `p` (first match). -/
def fslookup : FS → String → Option Entry
  | [], _ => none
  | (q, e) :: r, p => if q = p then some e else fslookup r p

/-- Remove every entry at path `p`. -/
def fserase : FS → String → FS
  | [], _ => []
  | (q, e) :: r, p => if q = p then fserase r p else (q, e) :: fserase r p

/-- Store entry `e` at path `p`, replacing any previous entry there. -/
def fsinsert (fs : FS) (p : String) (e : Entry) : FS :=
  (p, e) :: fserase fs p

/-- The paths bound by the filesystem. -/
def fskeys (fs : FS) : List String :=
  fs.map Prod.fst

/-- A well-formed filesystem binds each path at most once. -/
def FS.WF (fs : FS) : Prop :=
  (fskeys fs).Nodup

instance (fs : FS) : Decidable (FS.WF fs) := by
  unfold FS.WF; infer_instance

/-- Follow symlinks from `p` for at most `fuel` steps, returning the entry
reached (`none` for a missing path or when the fuel runs out on a cycle). -/
def resolveEntry (fs : FS) : Nat → String → Option Entry
  | 0, _ => none
  | Nat.succ fuel, p =>
      match fslookup fs p with
      | some (Entry.symlink t) => resolveEntry fs fuel t
      | e => e

/-- Python `os.path.islink(p)`: the path itself is a symbolic link. -/
def os_path_islink (fs : FS) (p : String) : Bool :=
  match fslookup fs p with
  | some (Entry.symlink _) => true
  | _ => false

/-- Python `os.path.isdir(p)`: follows symlinks; a dangling or cyclic link is
not a directory. -/
def os_path_isdir (fs : FS) (p : String) : Bool :=
  match resolveEntry fs (fs.length + 1) p with
  | some (Entry.dir _) => true
  | _ => false

/-- Modelled from the spec: `system.path_exists` (`lutris.util.system`, not in
src/) is a plain existence check — false on the empty path, and following
symlinks like `os.path.exists`. -/
def system_path_exists (fs : FS) (p : String) : Bool :=
  (p ≠ "" : Bool) && (resolveEntry fs (fs.length + 1) p).isSome

/-- Python `os.unlink(p)` (only ever called on symlinks by the source). -/
def os_unlink (fs : FS) (p : String) : FS :=
  fserase fs p

/-- Python `os.rename(src, dst)`: moves the entry at `src` to `dst`.  A
missing `src` or an occupied `dst` (other than an empty directory replaced by
a directory) raises in Python, leaving the filesystem unchanged. -/
def os_rename (fs : FS) (src dst : String) : FS :=
  match fslookup fs src, fslookup fs dst with
  | none, _ => fs
  | some e, none => fsinsert (fserase fs src) dst e
  | some (Entry.dir c), some (Entry.dir []) => fsinsert (fserase fs src) dst (Entry.dir c)
  | some _, some _ => fs

/-- Python `os.makedirs(p, exist_ok=True)`: creates an empty directory at a
missing path, and is a no-op on an existing one (parent creation is implicit
in the flat path model). -/
def os_makedirs (fs : FS) (p : String) : FS :=
  match fslookup fs p with
  | none => fsinsert fs p (Entry.dir [])
  | some _ => fs

/-- Python `os.symlink(src, dst)`: creates a link at a missing `dst`; an
existing `dst` raises `FileExistsError`, leaving the filesystem unchanged. -/
def os_symlink (fs : FS) (src dst : String) : FS :=
  match fslookup fs dst with
  | none => fsinsert fs dst (Entry.symlink src)
  | some _ => fs

/-- A registry value: the source writes strings (DLL overrides) and integers
(DPI). -/
inductive RegValue where
  | str (s : String)
  | int (n : Int)
deriving DecidableEq, Repr

/-- One hive file's contents: (key path, value name) to value. -/
abbrev Hive := List ((String × String) × RegValue)

/-- Modelled from the spec: the Hive Store collaborator's
`query(keyPath, valueName)` — the stored value, or none. -/
def hiveQuery : Hive → String → String → Option RegValue
  | [], _, _ => none
  | ((k, s), v) :: r, kp, sk => if k = kp ∧ s = sk then some v else hiveQuery r kp sk

/-- Modelled from the spec: the Hive Store collaborator's
`setValue(keyPath, valueName, value)` — overwrites the stored value. -/
def hiveSet : Hive → String → String → RegValue → Hive
  | [], kp, sk, v => [((kp, sk), v)]
  | ((k, s), w) :: r, kp, sk, v =>
      if k = kp ∧ s = sk then hiveSet r kp sk v else ((k, s), w) :: hiveSet r kp sk v

/-- The two hive files of a Wine prefix (`user.reg` and `system.reg`);
`WineRegistry.save` is implicit in this persistent-state model. -/
structure RegState where
  userReg : Hive
  systemReg : Hive
deriving DecidableEq, Repr

/-- `WinePrefixManager.hkcu_prefix`. -/
def hkcuId : String := "HKEY_CURRENT_USER"

/-- `WinePrefixManager.hklm_prefix`. -/
def hklmId : String := "HKEY_LOCAL_MACHINE"

/-- `WinePrefixManager.get_registry_path`: route a key address to the prefix's
`user.reg` or `system.reg` file; any other leading hive identifier raises
`ValueError`, modeled as `Except.error`. -/
def get_registry_path (ppath key : String) : Except String String :=
  if strStartsWith key hkcuId then Except.ok (os_path_join ppath "user.reg")
  else if strStartsWith key hklmId then Except.ok (os_path_join ppath "system.reg")
  else Except.error ("Unsupported key '" ++ key ++ "'")

/-- `WinePrefixManager.get_key_path`: strip the recognized hive identifier and
its separator; an unrecognized identifier raises `ValueError`. -/
def get_key_path (key : String) : Except String String :=
  if strStartsWith key hkcuId then Except.ok (strDropLeft key (hkcuId.data.length + 1))
  else if strStartsWith key hklmId then Except.ok (strDropLeft key (hklmId.data.length + 1))
  else Except.error ("The key " ++ key ++ " is currently not supported by WinePrefixManager")

/-- `WinePrefixManager.get_registry_key`: open the hive file routed by
`get_registry_path` and `query` it at `get_key_path key`.  Every call site in
the source passes a key address with a recognized hive identifier; the
`ValueError` of an unrouteable key (which the source would propagate) is
modeled as `none`. -/
def get_registry_key (rs : RegState) (key subkey : String) : Option RegValue :=
  if strStartsWith key hkcuId then
    hiveQuery rs.userReg (strDropLeft key (hkcuId.data.length + 1)) subkey
  else if strStartsWith key hklmId then
    hiveQuery rs.systemReg (strDropLeft key (hklmId.data.length + 1)) subkey
  else none

/-- `WinePrefixManager.set_registry_key`: `set_value` then `save` on the
routed hive.  As in `get_registry_key`, the unrouteable case (a Python
`ValueError`) leaves the registry unchanged. -/
def set_registry_key (rs : RegState) (key subkey : String) (v : RegValue) : RegState :=
  if strStartsWith key hkcuId then
    { rs with userReg := hiveSet rs.userReg (strDropLeft key (hkcuId.data.length + 1)) subkey v }
  else if strStartsWith key hklmId then
    { rs with systemReg := hiveSet rs.systemReg (strDropLeft key (hklmId.data.length + 1)) subkey v }
  else rs

/-- The ambient host environment: `os.getenv("USER")`, the home directory
(`os.path.expanduser("~")`), and the host special-folder discovery
`get_xdg_entry` (`lutris.util.xdgshortcuts`, not in src/; modeled from the
spec as an injected capability from logical folder identifier to host path). -/
structure Env where
  envUser : Option String
  home : String
  xdg : String → Option String

/-- The persistent state of one Wine prefix: its filesystem, the contents of
the `.lutris_destkop_integration` and `.lutris_dpi_assignment` marker files
(`none` = absent), and its two registry hives. -/
structure PState where
  fs : FS
  integrationMarker : Option String
  dpiMarker : Option String
  reg : RegState
deriving DecidableEq, Repr

/-- `DESKTOP_KEYS`. -/
def DESKTOP_KEYS : List String := ["Desktop", "Personal", "My Music", "My Videos", "My Pictures"]

/-- `DEFAULT_DESKTOP_FOLDERS`. -/
def DEFAULT_DESKTOP_FOLDERS : List String := ["Desktop", "Documents", "Music", "Videos", "Pictures"]

/-- `DESKTOP_XDG`. -/
def DESKTOP_XDG : List String := ["DESKTOP", "DOCUMENTS", "MUSIC", "VIDEOS", "PICTURES"]

/-- `WinePrefixManager.get_user_dir`. -/
def get_user_dir (env : Env) (ppath : String) (default_user : Option String) : String :=
  os_path_join (os_path_join ppath "drive_c/users/")
    (orFalsy default_user (orFalsy env.envUser "lutrisuser"))

/-- The `user_dir` property: `get_user_dir()` with no default user. -/
def user_dir (env : Env) (ppath : String) : String :=
  get_user_dir env ppath none

/-- `WinePrefixManager._get_desktop_integration_assignment`: the marker file's
contents if it exists, `""` otherwise (unreadable markers also yield `""`). -/
def get_desktop_integration_assignment (st : PState) : String :=
  match st.integrationMarker with
  | some s => s
  | none => ""

/-- `WinePrefixManager._set_desktop_integration_assignment`: write the marker
file, or remove it when the directory is falsy. -/
def set_desktop_integration_assignment (st : PState) (desktop_dir : String) : PState :=
  if desktop_dir ≠ "" then { st with integrationMarker := some desktop_dir }
  else { st with integrationMarker := none }

/-- The `Shell Folders` registry key address used by `get_desktop_folders`. -/
def shellFoldersKey : String :=
  hkcuId ++ "/Software/Microsoft/Windows/CurrentVersion/Explorer/Shell Folders"

/-- One loop iteration of `get_desktop_folders`: the folder name derived from
the registry for logical name `key`, or `none` when the lookup is falsy and
the iteration `continue`s.  (A non-string non-falsy registry value would crash
Python's `rfind`; this subsystem only ever stores strings there.) -/
def shellFolderName (rs : RegState) (key : String) : Option String :=
  match get_registry_key rs shellFoldersKey key with
  | some (RegValue.str folder) =>
      if folder = "" then none else some (lastComponentBackslash folder)
  | _ => none

/-- The names collected by `get_desktop_folders`' loop, in `DESKTOP_KEYS`
order. -/
def collectDesktopFolders (rs : RegState) : List String :=
  DESKTOP_KEYS.filterMap (shellFolderName rs)

/-- `WinePrefixManager.get_desktop_folders`: `desktop_folders or
DEFAULT_DESKTOP_FOLDERS` — the collected names, or the defaults when the
collected list is empty. -/
def get_desktop_folders (rs : RegState) : List String :=
  let desktop_folders := collectDesktopFolders rs
  if desktop_folders.isEmpty then DEFAULT_DESKTOP_FOLDERS else desktop_folders

/-- The valid DLL override modes (the tuple tested by `override_dll`). -/
def validDllModes : List String := ["builtin", "native", "builtin,native", "native,builtin", ""]

/-- `WinePrefixManager.override_dll`: a mode starting with `dis` is coerced to
`""`; a mode outside the valid tuple is logged and skipped (no write). -/
def override_dll (rs : RegState) (dll mode : String) : RegState :=
  let key := hkcuId ++ "/Software/Wine/DllOverrides"
  let mode := if strStartsWith mode "dis" then "" else mode
  if mode ∉ validDllModes then rs
  else set_registry_key rs key dll (RegValue.str mode)

/-- `WinePrefixManager._remove_desktop_folder`: unlink a symlink, `rmdir` an
empty directory, and rename a non-empty directory (whose `rmdir` raises
`OSError`) to `safe_path`. -/
def remove_desktop_folder (fs : FS) (path safe_path : String) : FS :=
  if os_path_islink fs path then os_unlink fs path
  else if os_path_isdir fs path then
    match fslookup fs path with
    | some (Entry.dir files) =>
        if files.isEmpty then fserase fs path else os_rename fs path safe_path
    | _ => fs
  else fs

/-- One loop iteration of `enable_desktop_disintegration`: skip a non-link,
else remove the link and restore the `.winecfg` backup if it is a directory,
or create a fresh empty directory. -/
def disintegrationStep (u : String) (fs : FS) (item : String) : FS :=
  let path := os_path_join u item
  let safe_path := path ++ ".winecfg"
  if ¬ os_path_islink fs path then fs
  else
    let fs1 := remove_desktop_folder fs path safe_path
    if os_path_isdir fs1 safe_path then os_rename fs1 safe_path path
    else os_makedirs fs1 path

/-- `WinePrefixManager.enable_desktop_disintegration`. -/
def enable_desktop_disintegration (env : Env) (ppath : String) (st : PState) : PState :=
  let u := user_dir env ppath
  if system_path_exists st.fs u = true ∧ get_desktop_integration_assignment st ≠ u then
    let folders := get_desktop_folders st.reg
    set_desktop_integration_assignment
      { st with fs := folders.foldl (disintegrationStep u) st.fs } u
  else st

/-- The resolution of `enable_desktop_integration_sandbox`'s argument:
`os.path.expanduser(desktop_dir) if desktop_dir else user_dir`. -/
def sandbox_resolved_dir (env : Env) (ppath : String) (desktop_dir : String) : String :=
  if desktop_dir ≠ "" then os_path_expanduser env.home desktop_dir
  else user_dir env ppath

/-- One loop iteration of `enable_desktop_integration_sandbox`: remove or back
up whatever occupies the guest path, create the sandbox-side directory, and
link the guest path to it. -/
def sandboxStep (u d : String) (fs : FS) (item : String) : FS :=
  let path := os_path_join u item
  let safe_path := path ++ ".winecfg"
  let fs1 := remove_desktop_folder fs path safe_path
  let src_path := os_path_join d item
  os_symlink (os_makedirs fs1 src_path) src_path path

/-- `WinePrefixManager.enable_desktop_integration_sandbox`.  (The source's
`try`/`except TypeError` around `os.path.join` guards a `None` folder name,
which the string model cannot represent.) -/
def enable_desktop_integration_sandbox (env : Env) (ppath : String) (st : PState)
    (desktop_dir : String) : PState :=
  let u := user_dir env ppath
  let d := sandbox_resolved_dir env ppath desktop_dir
  if d = u then enable_desktop_disintegration env ppath st
  else if system_path_exists st.fs u = true ∧ get_desktop_integration_assignment st ≠ d then
    let folders := get_desktop_folders st.reg
    set_desktop_integration_assignment
      { st with fs := folders.foldl (sandboxStep u d) st.fs } d
  else st

/-- One loop iteration of `restore_desktop_integration`: remove or back up the
guest path, then link it to the host folder discovered for the matching
`DESKTOP_XDG` identifier; a missing host folder is logged and skipped. -/
def restoreStep (xdg : String → Option String) (u : String) (fs : FS) (it : Nat × String) : FS :=
  let path := os_path_join u it.2
  let safe_path := path ++ ".winecfg"
  let fs1 := remove_desktop_folder fs path safe_path
  match DESKTOP_XDG.get? it.1 with
  | none => fs1
  | some xdgKey =>
      match xdg xdgKey with
      | none => fs1
      | some src_path => if src_path = "" then fs1 else os_symlink fs1 src_path path

/-- `WinePrefixManager.restore_desktop_integration`. -/
def restore_desktop_integration (env : Env) (ppath : String) (st : PState) : PState :=
  let u := user_dir env ppath
  let home_dir := env.home
  if system_path_exists st.fs u = true ∧ get_desktop_integration_assignment st ≠ home_dir then
    let folders := get_desktop_folders st.reg
    set_desktop_integration_assignment
      { st with fs := folders.enum.foldl (restoreStep env.xdg u) st.fs } home_dir
  else st

/-- The first DPI registry key address of `set_dpi`. -/
def dpiFontsKey : String := hkcuId ++ "/Software/Wine/Fonts"

/-- The second DPI registry key address of `set_dpi`. -/
def dpiDesktopKey : String := hkcuId ++ "/Control Panel/Desktop"

/-- `key_paths` in `set_dpi`. -/
def dpiKeyPaths : List String := [dpiFontsKey, dpiDesktopKey]

/-- `assign_dpi` in `set_dpi`: write `LogPixels` at both key addresses. -/
def assign_dpi (rs : RegState) (dpi : Int) : RegState :=
  dpiKeyPaths.foldl (fun r kp => set_registry_key r kp "LogPixels" (RegValue.int dpi)) rs

/-- `is_lutris_dpi_assigned` in `set_dpi`: the marker is readable, numeric,
and both registry locations still hold exactly its value (an unreadable or
missing marker, a non-numeric one, or any mismatching location yields
`False`). -/
def is_lutris_dpi_assigned (st : PState) : Bool :=
  match st.dpiMarker with
  | none => false
  | some s =>
      match pyToInt s with
      | none => false
      | some assigned =>
          dpiKeyPaths.all fun kp =>
            get_registry_key st.reg kp "LogPixels" == some (RegValue.int assigned)

/-- The falsy branch of `set_dpi` (`dpi` is `None` or `0`): if the marker file
exists, conditionally reset both locations to 96, then remove the marker. -/
def set_dpi_clear (st : PState) : PState :=
  if st.dpiMarker.isSome then
    if is_lutris_dpi_assigned st then
      { st with reg := assign_dpi st.reg 96, dpiMarker := none }
    else { st with dpiMarker := none }
  else st

/-- `WinePrefixManager.set_dpi`: a truthy `dpi` is written to both registry
locations and recorded in the marker; a falsy one (including `0`) takes the
clearing branch. -/
def set_dpi (st : PState) (dpi : Option Int) : PState :=
  match dpi with
  | some n =>
      if n ≠ 0 then
        { st with reg := assign_dpi st.reg n, dpiMarker := some (toString n) }
      else set_dpi_clear st
  | none => set_dpi_clear st

/-- Count of data file `f` in one entry. -/
def entryCount (e : Entry) (f : String) : Nat :=
  match e with
  | Entry.dir files => files.count f
  | Entry.symlink _ => 0

/-- Count of data file `f` in an optional entry. -/
def optEntryCount (o : Option Entry) (f : String) : Nat :=
  match o with
  | some e => entryCount e f
  | none => 0

/-- Count of data file `f` across the whole filesystem. -/
def countFiles : FS → String → Nat
  | [], _ => 0
  | (_, e) :: r, f => entryCount e f + countFiles r f

/-! ### Concrete fixtures used by witnesses and counterexamples -/

/-- A concrete host environment: user `u`, home `/home/u`, no discoverable
host folders. -/
def envW : Env :=
  { envUser := some "u", home := "/home/u", xdg := fun _ => none }

/-- The guest user-profile directory of prefix `/px` under `envW`. -/
def uW : String := user_dir envW "/px"

/-- An empty registry. -/
def regW : RegState := { userReg := [], systemReg := [] }

/-- A prefix state whose profile directory exists and whose Desktop folder is
a real directory holding one user file. -/
def stW : PState :=
  { fs := [(uW, Entry.dir []), (os_path_join uW "Desktop", Entry.dir ["file.txt"])]
    integrationMarker := none
    dpiMarker := none
    reg := regW }

/-- A prefix state whose profile directory does not exist at all. -/
def stMissing : PState :=
  { fs := [], integrationMarker := none, dpiMarker := none, reg := regW }

/-- A prefix state whose profile directory exists and whose assignment marker
points at a sandbox, so that disintegration visibly changes the state. -/
def stDeg : PState :=
  { fs := [(uW, Entry.dir [])], integrationMarker := some "/sb", dpiMarker := none, reg := regW }

/-- A registry holding 120 in both DPI locations. -/
def regDpi : RegState :=
  { userReg := [(("Software/Wine/Fonts", "LogPixels"), RegValue.int 120),
                (("Control Panel/Desktop", "LogPixels"), RegValue.int 120)]
    systemReg := [] }

/-- A prefix state right after `set_dpi 120`: marker `"120"`, both registry
locations 120. -/
def stDpi : PState :=
  { fs := [], integrationMarker := none, dpiMarker := some "120", reg := regDpi }

/-- A registry whose `Shell Folders` key holds names for four of the five
logical folders but not for `Desktop`. -/
def rsCE : RegState :=
  { userReg :=
      [(("Software/Microsoft/Windows/CurrentVersion/Explorer/Shell Folders", "Personal"),
          RegValue.str "C:\\users\\who\\Docs"),
        (("Software/Microsoft/Windows/CurrentVersion/Explorer/Shell Folders", "My Music"),
          RegValue.str "C:\\users\\who\\Mus"),
        (("Software/Microsoft/Windows/CurrentVersion/Explorer/Shell Folders", "My Videos"),
          RegValue.str "C:\\users\\who\\Vid"),
        (("Software/Microsoft/Windows/CurrentVersion/Explorer/Shell Folders", "My Pictures"),
          RegValue.str "C:\\users\\who\\Pic")]
    systemReg := [] }

/-- A sandboxed prefix state for exercising disintegration: `Desktop` is a
link with no backup, `Documents` is a link with a non-empty `.winecfg` backup,
and the remaining folders are absent. -/
def stC3 : PState :=
  { fs := [(uW, Entry.dir []),
           (os_path_join uW "Desktop", Entry.symlink "/sb/Desktop"),
           (os_path_join uW "Documents", Entry.symlink "/sb/Documents"),
           (os_path_join uW "Documents" ++ ".winecfg", Entry.dir ["old.txt"])]
    integrationMarker := some "/sb"
    dpiMarker := none
    reg := regW }

/-! ### Association-list filesystem lemmas -/

theorem fslookup_fserase_self (fs : FS) (p : String) : fslookup (fserase fs p) p = none := by
  induction fs with
  | nil => rfl
  | cons h r ih =>
      obtain ⟨q, e⟩ := h
      by_cases hq : q = p
      · simp [fserase, hq, ih]
      · simp [fserase, fslookup, hq, ih]

theorem fslookup_fserase_ne (fs : FS) (p q : String) (h : q ≠ p) :
    fslookup (fserase fs p) q = fslookup fs q := by
  induction fs with
  | nil => rfl
  | cons hd r ih =>
      obtain ⟨k, e⟩ := hd
      by_cases hk : k = p
      · subst hk
        simp only [fserase, if_pos rfl, fslookup, if_neg (fun hh : k = q => h hh.symm)]
        exact ih
      · simp only [fserase, if_neg hk, fslookup]
        by_cases hkq : k = q
        · simp [hkq]
        · simp [hkq, ih]

theorem fslookup_fsinsert_self (fs : FS) (p : String) (e : Entry) :
    fslookup (fsinsert fs p e) p = some e := by
  simp [fsinsert, fslookup]

theorem fslookup_fsinsert_ne (fs : FS) (p q : String) (e : Entry) (h : q ≠ p) :
    fslookup (fsinsert fs p e) q = fslookup fs q := by
  simp only [fsinsert, fslookup]
  rw [if_neg (fun hh => h hh.symm), fslookup_fserase_ne _ _ _ h]

theorem fslookup_eq_none_iff (fs : FS) (p : String) :
    fslookup fs p = none ↔ p ∉ fskeys fs := by
  induction fs with
  | nil => simp [fslookup, fskeys]
  | cons hd r ih =>
      obtain ⟨k, e⟩ := hd
      by_cases hk : k = p
      · simp [fslookup, fskeys, hk]
      · simp [fslookup, fskeys, hk, ih, Ne.symm hk]

theorem fserase_eq_self (fs : FS) (p : String) (h : fslookup fs p = none) :
    fserase fs p = fs := by
  induction fs with
  | nil => rfl
  | cons hd r ih =>
      obtain ⟨k, e⟩ := hd
      simp only [fslookup] at h
      by_cases hk : k = p
      · simp [hk] at h
      · simp only [fserase, if_neg hk]
        rw [ih (by simpa [hk] using h)]

theorem fskeys_fserase_subset (fs : FS) (p : String) :
    ∀ q ∈ fskeys (fserase fs p), q ∈ fskeys fs := by
  induction fs with
  | nil => intro q hq; exact absurd hq (by simp [fserase, fskeys])
  | cons hd r ih =>
      obtain ⟨k, e⟩ := hd
      intro q hq
      by_cases hk : k = p
      · have hm : q ∈ fskeys r := ih q (by simpa [fserase, hk] using hq)
        simp only [fskeys, List.map_cons, List.mem_cons]
        exact Or.inr hm
      · simp only [fserase, if_neg hk, fskeys, List.map_cons, List.mem_cons] at hq
        simp only [fskeys, List.map_cons, List.mem_cons]
        rcases hq with hq | hq
        · exact Or.inl hq
        · exact Or.inr (ih q hq)

theorem WF_fserase (fs : FS) (p : String) (h : FS.WF fs) : FS.WF (fserase fs p) := by
  induction fs with
  | nil => exact h
  | cons hd r ih =>
      obtain ⟨k, e⟩ := hd
      simp only [FS.WF, fskeys, List.map_cons, List.nodup_cons] at h
      by_cases hk : k = p
      · simpa [fserase, hk] using ih h.2
      · simp only [fserase, if_neg hk, FS.WF, fskeys, List.map_cons, List.nodup_cons]
        exact ⟨fun hm => h.1 (fskeys_fserase_subset r p k hm), ih h.2⟩

theorem not_mem_fskeys_fserase (fs : FS) (p : String) : p ∉ fskeys (fserase fs p) := by
  induction fs with
  | nil => simp [fserase, fskeys]
  | cons hd r ih =>
      obtain ⟨k, e⟩ := hd
      by_cases hk : k = p
      · simpa [fserase, hk] using ih
      · simp only [fserase, if_neg hk, fskeys, List.map_cons, List.mem_cons]
        push_neg
        exact ⟨fun hh => hk hh.symm, ih⟩

theorem WF_fsinsert (fs : FS) (p : String) (e : Entry) (h : FS.WF fs) :
    FS.WF (fsinsert fs p e) := by
  simp only [fsinsert, FS.WF, fskeys, List.map_cons, List.nodup_cons]
  exact ⟨not_mem_fskeys_fserase fs p, WF_fserase fs p h⟩

/-! ### File-count lemmas (no user data is deleted) -/

theorem countFiles_decomp (fs : FS) (p : String) (f : String) (h : FS.WF fs) :
    countFiles fs f = optEntryCount (fslookup fs p) f + countFiles (fserase fs p) f := by
  induction fs with
  | nil => rfl
  | cons hd r ih =>
      obtain ⟨k, e⟩ := hd
      simp only [FS.WF, fskeys, List.map_cons, List.nodup_cons] at h
      by_cases hk : k = p
      · subst hk
        have hnone : fslookup r k = none := (fslookup_eq_none_iff r k).mpr h.1
        simp [countFiles, fslookup, fserase, optEntryCount, fserase_eq_self r k hnone]
      · simp only [countFiles, fslookup, if_neg hk, fserase]
        rw [ih h.2]
        omega

theorem countFiles_fsinsert (fs : FS) (p : String) (e : Entry) (f : String) :
    countFiles (fsinsert fs p e) f = entryCount e f + countFiles (fserase fs p) f := rfl

theorem countFiles_fserase_of_none (fs : FS) (p : String) (f : String) (h : FS.WF fs)
    (hl : fslookup fs p = none) : countFiles (fserase fs p) f = countFiles fs f := by
  rw [countFiles_decomp fs p f h, hl]
  simp [optEntryCount]

theorem islink_iff (fs : FS) (p : String) :
    os_path_islink fs p = true ↔ ∃ t, fslookup fs p = some (Entry.symlink t) := by
  unfold os_path_islink
  cases hl : fslookup fs p with
  | none => simp
  | some e => cases e <;> simp

theorem isdir_of_lookup_dir (fs : FS) (p : String) (l : List String)
    (h : fslookup fs p = some (Entry.dir l)) : os_path_isdir fs p = true := by
  simp [os_path_isdir, resolveEntry, h]

theorem isdir_of_lookup_none (fs : FS) (p : String) (h : fslookup fs p = none) :
    os_path_isdir fs p = false := by
  simp [os_path_isdir, resolveEntry, h]

theorem os_makedirs_count_WF (fs : FS) (p f : String) (h : FS.WF fs) :
    countFiles (os_makedirs fs p) f = countFiles fs f ∧ FS.WF (os_makedirs fs p) := by
  cases hl : fslookup fs p with
  | none =>
      refine ⟨?_, ?_⟩
      · simp only [os_makedirs, hl]
        rw [countFiles_fsinsert, fserase_eq_self fs p hl]
        simp [entryCount]
      · simp only [os_makedirs, hl]
        exact WF_fsinsert fs p _ h
  | some e =>
      simp only [os_makedirs, hl]
      exact ⟨by simp, h⟩

theorem os_symlink_count_WF (fs : FS) (src dst f : String) (h : FS.WF fs) :
    countFiles (os_symlink fs src dst) f = countFiles fs f ∧ FS.WF (os_symlink fs src dst) := by
  cases hl : fslookup fs dst with
  | none =>
      refine ⟨?_, ?_⟩
      · simp only [os_symlink, hl]
        rw [countFiles_fsinsert, fserase_eq_self fs dst hl]
        simp [entryCount]
      · simp only [os_symlink, hl]
        exact WF_fsinsert fs dst _ h
  | some e =>
      simp only [os_symlink, hl]
      exact ⟨by simp, h⟩

theorem os_rename_count_WF (fs : FS) (src dst f : String) (h : FS.WF fs) :
    countFiles (os_rename fs src dst) f = countFiles fs f ∧ FS.WF (os_rename fs src dst) := by
  cases hsrc : fslookup fs src with
  | none =>
      simp only [os_rename, hsrc]
      exact ⟨by simp, h⟩
  | some e =>
      cases hdst : fslookup fs dst with
      | none =>
          have h1 : fslookup (fserase fs src) dst = none := by
            by_cases hds : dst = src
            · subst hds; exact fslookup_fserase_self fs dst
            · rw [fslookup_fserase_ne fs src dst hds]; exact hdst
          have hd0 : countFiles fs f = entryCount e f + countFiles (fserase fs src) f := by
            have := countFiles_decomp fs src f h
            rw [hsrc] at this
            simpa [optEntryCount] using this
          refine ⟨?_, ?_⟩
          · simp only [os_rename, hsrc, hdst]
            rw [countFiles_fsinsert, fserase_eq_self _ dst h1, hd0]
          · simp only [os_rename, hsrc, hdst]
            exact WF_fsinsert _ dst _ (WF_fserase fs src h)
      | some e2 =>
          cases e with
          | symlink t =>
              cases e2 <;> simp only [os_rename, hsrc, hdst] <;> exact ⟨by simp, h⟩
          | dir c =>
              cases e2 with
              | symlink t2 =>
                  simp only [os_rename, hsrc, hdst]
                  exact ⟨by simp, h⟩
              | dir l2 =>
                  cases l2 with
                  | cons x xs =>
                      simp only [os_rename, hsrc, hdst]
                      exact ⟨by simp, h⟩
                  | nil =>
                      have hWFs := WF_fserase fs src h
                      have hd0 : countFiles fs f =
                          entryCount (Entry.dir c) f + countFiles (fserase fs src) f := by
                        have := countFiles_decomp fs src f h
                        rw [hsrc] at this
                        simpa [optEntryCount] using this
                      have h2 : countFiles (fserase (fserase fs src) dst) f =
                          countFiles (fserase fs src) f := by
                        by_cases hds : dst = src
                        · subst hds
                          rw [fserase_eq_self _ dst (fslookup_fserase_self fs dst)]
                        · have hl2 : fslookup (fserase fs src) dst = some (Entry.dir []) := by
                            rw [fslookup_fserase_ne fs src dst hds]; exact hdst
                          have := countFiles_decomp (fserase fs src) dst f hWFs
                          rw [hl2] at this
                          simp only [optEntryCount, entryCount] at this
                          simpa using this.symm
                      refine ⟨?_, ?_⟩
                      · simp only [os_rename, hsrc, hdst]
                        rw [countFiles_fsinsert, h2, hd0]
                      · simp only [os_rename, hsrc, hdst]
                        exact WF_fsinsert _ dst _ hWFs

theorem remove_desktop_folder_count_WF (fs : FS) (path safe_path f : String) (h : FS.WF fs) :
    countFiles (remove_desktop_folder fs path safe_path) f = countFiles fs f ∧
    FS.WF (remove_desktop_folder fs path safe_path) := by
  by_cases hlink : os_path_islink fs path = true
  · obtain ⟨t, ht⟩ := (islink_iff fs path).mp hlink
    have hd0 : countFiles fs f = countFiles (fserase fs path) f := by
      have := countFiles_decomp fs path f h
      rw [ht] at this
      simpa [optEntryCount, entryCount] using this
    simp only [remove_desktop_folder, hlink, if_true, os_unlink]
    exact ⟨hd0.symm, WF_fserase fs path h⟩
  · rw [remove_desktop_folder, if_neg hlink]
    by_cases hdir : os_path_isdir fs path = true
    · rw [if_pos hdir]
      cases hl : fslookup fs path with
      | none => exact ⟨rfl, h⟩
      | some e =>
          cases e with
          | symlink t =>
              exact absurd ((islink_iff fs path).mpr ⟨t, hl⟩) hlink
          | dir files =>
              cases hfe : files.isEmpty
              · simp only [hfe, Bool.false_eq_true, if_false]
                exact os_rename_count_WF fs path safe_path f h
              · simp only [hfe, if_true]
                have hfnil : files = [] := List.isEmpty_iff.mp hfe
                have hd0 : countFiles fs f = countFiles (fserase fs path) f := by
                  have := countFiles_decomp fs path f h
                  rw [hl, hfnil] at this
                  simpa [optEntryCount, entryCount] using this
                exact ⟨hd0.symm, WF_fserase fs path h⟩
    · rw [if_neg hdir]
      exact ⟨rfl, h⟩

theorem sandboxStep_count_WF (u d : String) (fs : FS) (item f : String) (h : FS.WF fs) :
    countFiles (sandboxStep u d fs item) f = countFiles fs f ∧ FS.WF (sandboxStep u d fs item) := by
  unfold sandboxStep
  obtain ⟨hc1, hw1⟩ := remove_desktop_folder_count_WF fs (os_path_join u item)
    (os_path_join u item ++ ".winecfg") f h
  obtain ⟨hc2, hw2⟩ := os_makedirs_count_WF _ (os_path_join d item) f hw1
  obtain ⟨hc3, hw3⟩ := os_symlink_count_WF _ (os_path_join d item) (os_path_join u item) f hw2
  exact ⟨by rw [hc3, hc2, hc1], hw3⟩

theorem disintegrationStep_count_WF (u : String) (fs : FS) (item f : String) (h : FS.WF fs) :
    countFiles (disintegrationStep u fs item) f = countFiles fs f ∧
    FS.WF (disintegrationStep u fs item) := by
  unfold disintegrationStep
  by_cases hlink : os_path_islink fs (os_path_join u item) = true
  · rw [if_neg (not_not_intro hlink)]
    obtain ⟨hc1, hw1⟩ := remove_desktop_folder_count_WF fs (os_path_join u item)
      (os_path_join u item ++ ".winecfg") f h
    by_cases hdir : os_path_isdir (remove_desktop_folder fs (os_path_join u item)
        (os_path_join u item ++ ".winecfg")) (os_path_join u item ++ ".winecfg") = true
    · rw [if_pos hdir]
      obtain ⟨hc2, hw2⟩ := os_rename_count_WF _ (os_path_join u item ++ ".winecfg")
        (os_path_join u item) f hw1
      exact ⟨by rw [hc2, hc1], hw2⟩
    · rw [if_neg hdir]
      obtain ⟨hc2, hw2⟩ := os_makedirs_count_WF _ (os_path_join u item) f hw1
      exact ⟨by rw [hc2, hc1], hw2⟩
  · rw [if_pos hlink]
    exact ⟨rfl, h⟩

theorem restoreStep_count_WF (xdg : String → Option String) (u : String) (fs : FS)
    (it : Nat × String) (f : String) (h : FS.WF fs) :
    countFiles (restoreStep xdg u fs it) f = countFiles fs f ∧ FS.WF (restoreStep xdg u fs it) := by
  obtain ⟨hc1, hw1⟩ := remove_desktop_folder_count_WF fs (os_path_join u it.2)
    (os_path_join u it.2 ++ ".winecfg") f h
  unfold restoreStep
  cases hx : DESKTOP_XDG.get? it.1 with
  | none =>
      simp only [hx]
      exact ⟨hc1, hw1⟩
  | some xdgKey =>
      cases hxe : xdg xdgKey with
      | none =>
          simp only [hx, hxe]
          exact ⟨hc1, hw1⟩
      | some src_path =>
          by_cases hs : src_path = ""
          · simp only [hx, hxe, if_pos hs]
            exact ⟨hc1, hw1⟩
          · simp only [hx, hxe, if_neg hs]
            obtain ⟨hc2, hw2⟩ := os_symlink_count_WF _ src_path (os_path_join u it.2) f hw1
            exact ⟨by rw [hc2, hc1], hw2⟩

theorem foldl_count_WF {α : Type} (step : FS → α → FS) (f : String)
    (hstep : ∀ fs a, FS.WF fs → countFiles (step fs a) f = countFiles fs f ∧ FS.WF (step fs a)) :
    ∀ (l : List α) (fs : FS), FS.WF fs →
      countFiles (List.foldl step fs l) f = countFiles fs f ∧ FS.WF (List.foldl step fs l) := by
  intro l
  induction l with
  | nil => intro fs h; exact ⟨rfl, h⟩
  | cons a r ih =>
      intro fs h
      obtain ⟨hc1, hw1⟩ := hstep fs a h
      obtain ⟨hc2, hw2⟩ := ih (step fs a) hw1
      exact ⟨by rw [List.foldl_cons, hc2, hc1], by rw [List.foldl_cons]; exact hw2⟩

theorem set_assignment_fs (st : PState) (d : String) :
    (set_desktop_integration_assignment st d).fs = st.fs := by
  unfold set_desktop_integration_assignment
  split <;> rfl

/-! ### String helper lemmas -/

theorem string_eq_empty_iff (s : String) : s = "" ↔ s.data = [] :=
  ⟨fun h => by rw [h], fun h => String.ext h⟩

theorem append_winecfg_ne (p : String) : p ++ ".winecfg" ≠ p := by
  intro h
  have hd := congrArg String.data h
  rw [String.data_append] at hd
  have := congrArg List.length hd
  simp at this

theorem winecfg_right_cancel (a b : String) (h : a ++ ".winecfg" = b ++ ".winecfg") : a = b := by
  have hd := congrArg String.data h
  rw [String.data_append, String.data_append] at hd
  exact String.ext (List.append_cancel_right hd)

theorem os_path_join_ne_empty (a b : String) (hb : b ≠ "") : os_path_join a b ≠ "" := by
  have hbd : b.data ≠ [] := fun hh => hb ((string_eq_empty_iff b).mpr hh)
  unfold os_path_join
  split_ifs with h1 h2 h3
  · exact hb
  · exact hb
  · intro hh
    have := (string_eq_empty_iff _).mp hh
    rw [String.data_append] at this
    exact hbd (List.append_eq_nil.mp this).2
  · intro hh
    have := (string_eq_empty_iff _).mp hh
    rw [String.data_append, String.data_append] at this
    exact hbd (List.append_eq_nil.mp this).2

theorem orFalsy_ne_empty (a : Option String) (b : String) (hb : b ≠ "") : orFalsy a b ≠ "" := by
  unfold orFalsy
  cases a with
  | none => exact hb
  | some s =>
      by_cases hs : s = ""
      · simp [hs, hb]
      · simp [hs]

theorem user_dir_ne_empty (env : Env) (ppath : String) (du : Option String) :
    get_user_dir env ppath du ≠ "" := by
  unfold get_user_dir
  apply os_path_join_ne_empty
  apply orFalsy_ne_empty
  apply orFalsy_ne_empty
  intro h
  exact absurd h (by decide)

/-! ### Behavior of the safe removal helper -/

theorem remove_desktop_folder_symlink (fs : FS) (path safe t : String)
    (h : fslookup fs path = some (Entry.symlink t)) :
    remove_desktop_folder fs path safe = fserase fs path := by
  unfold remove_desktop_folder
  rw [if_pos ((islink_iff fs path).mpr ⟨t, h⟩)]
  rfl

theorem remove_desktop_folder_empty_dir (fs : FS) (path safe : String)
    (h : fslookup fs path = some (Entry.dir [])) :
    remove_desktop_folder fs path safe = fserase fs path := by
  have hlink : ¬ os_path_islink fs path = true := by
    intro hl
    obtain ⟨t, ht⟩ := (islink_iff fs path).mp hl
    rw [h] at ht
    exact absurd ht (by simp)
  unfold remove_desktop_folder
  rw [if_neg hlink, if_pos (isdir_of_lookup_dir fs path [] h), h]
  simp

theorem remove_desktop_folder_nonempty_dir (fs : FS) (path safe : String) (files : List String)
    (h : fslookup fs path = some (Entry.dir files)) (hne : files ≠ []) :
    remove_desktop_folder fs path safe = os_rename fs path safe := by
  have hlink : ¬ os_path_islink fs path = true := by
    intro hl
    obtain ⟨t, ht⟩ := (islink_iff fs path).mp hl
    rw [h] at ht
    exact absurd ht (by simp)
  unfold remove_desktop_folder
  rw [if_neg hlink, if_pos (isdir_of_lookup_dir fs path files h), h]
  simp [List.isEmpty_iff, hne]

theorem remove_desktop_folder_missing (fs : FS) (path safe : String)
    (h : fslookup fs path = none) : remove_desktop_folder fs path safe = fs := by
  have hlink : ¬ os_path_islink fs path = true := by
    intro hl
    obtain ⟨t, ht⟩ := (islink_iff fs path).mp hl
    rw [h] at ht
    exact absurd ht (by simp)
  unfold remove_desktop_folder
  rw [if_neg hlink, if_neg (by rw [isdir_of_lookup_none fs path h]; simp)]

/-! ### The three desktop operations preserve every file count -/

theorem disintegration_count_WF (env : Env) (ppath : String) (st : PState) (f : String)
    (h : FS.WF st.fs) :
    countFiles (enable_desktop_disintegration env ppath st).fs f = countFiles st.fs f ∧
    FS.WF (enable_desktop_disintegration env ppath st).fs := by
  simp only [enable_desktop_disintegration]
  split_ifs with hg
  · rw [set_assignment_fs]
    exact foldl_count_WF (disintegrationStep (user_dir env ppath)) f
      (fun fs a hw => disintegrationStep_count_WF (user_dir env ppath) fs a f hw)
      (get_desktop_folders st.reg) st.fs h
  · exact ⟨rfl, h⟩

theorem sandbox_count_WF (env : Env) (ppath : String) (st : PState) (d f : String)
    (h : FS.WF st.fs) :
    countFiles (enable_desktop_integration_sandbox env ppath st d).fs f = countFiles st.fs f ∧
    FS.WF (enable_desktop_integration_sandbox env ppath st d).fs := by
  simp only [enable_desktop_integration_sandbox]
  split_ifs with hdeg hg
  · exact disintegration_count_WF env ppath st f h
  · rw [set_assignment_fs]
    exact foldl_count_WF (sandboxStep (user_dir env ppath) (sandbox_resolved_dir env ppath d)) f
      (fun fs a hw =>
        sandboxStep_count_WF (user_dir env ppath) (sandbox_resolved_dir env ppath d) fs a f hw)
      (get_desktop_folders st.reg) st.fs h
  · exact ⟨rfl, h⟩

theorem restore_count_WF (env : Env) (ppath : String) (st : PState) (f : String)
    (h : FS.WF st.fs) :
    countFiles (restore_desktop_integration env ppath st).fs f = countFiles st.fs f ∧
    FS.WF (restore_desktop_integration env ppath st).fs := by
  simp only [restore_desktop_integration]
  split_ifs with hg
  · rw [set_assignment_fs]
    exact foldl_count_WF (restoreStep env.xdg (user_dir env ppath)) f
      (fun fs a hw => restoreStep_count_WF env.xdg (user_dir env ppath) fs a f hw)
      (get_desktop_folders st.reg).enum st.fs h
  · exact ⟨rfl, h⟩

/-! ### Claim theorems -/

/-- Claim C1: for every guest folder path processed by the three desktop-folder
operations, no contained user data is ever deleted — every per-file count over
the whole filesystem is preserved by `enable_desktop_integration_sandbox`,
`enable_desktop_disintegration` and `restore_desktop_integration` — and the
safe removal helper `_remove_desktop_folder` unlinks a symlink, removes an
empty directory, and renames a non-empty directory to the same path with
`.winecfg` appended (its contents land intact at the backup path, the original
path becoming free), never removing it. -/
theorem c1_no_user_data_deleted (env : Env) (ppath : String) (st : PState) (d f : String)
    (h : FS.WF st.fs) :
    countFiles (enable_desktop_integration_sandbox env ppath st d).fs f = countFiles st.fs f ∧
    countFiles (enable_desktop_disintegration env ppath st).fs f = countFiles st.fs f ∧
    countFiles (restore_desktop_integration env ppath st).fs f = countFiles st.fs f ∧
    (∀ p t, fslookup st.fs p = some (Entry.symlink t) →
      remove_desktop_folder st.fs p (p ++ ".winecfg") = fserase st.fs p) ∧
    (∀ p, fslookup st.fs p = some (Entry.dir []) →
      remove_desktop_folder st.fs p (p ++ ".winecfg") = fserase st.fs p) ∧
    (∀ p files, fslookup st.fs p = some (Entry.dir files) → files ≠ [] →
      fslookup st.fs (p ++ ".winecfg") = none →
      fslookup (remove_desktop_folder st.fs p (p ++ ".winecfg")) (p ++ ".winecfg") =
          some (Entry.dir files) ∧
      fslookup (remove_desktop_folder st.fs p (p ++ ".winecfg")) p = none) := by
  refine ⟨(sandbox_count_WF env ppath st d f h).1,
    (disintegration_count_WF env ppath st f h).1,
    (restore_count_WF env ppath st f h).1,
    fun p t hp => remove_desktop_folder_symlink st.fs p (p ++ ".winecfg") t hp,
    fun p hp => remove_desktop_folder_empty_dir st.fs p (p ++ ".winecfg") hp,
    fun p files hp hne hsafe => ?_⟩
  rw [remove_desktop_folder_nonempty_dir st.fs p (p ++ ".winecfg") files hp hne]
  unfold os_rename
  rw [hp, hsafe]
  constructor
  · exact fslookup_fsinsert_self _ _ _
  · rw [fslookup_fsinsert_ne _ _ _ _ (Ne.symm (append_winecfg_ne p))]
    exact fslookup_fserase_self _ _

/-- Witness for C1 at a concrete prefix whose Desktop folder holds one file. -/
theorem c1_no_user_data_deleted_witness :
    FS.WF stW.fs ∧
    countFiles (enable_desktop_integration_sandbox envW "/px" stW "/sb").fs "file.txt" =
      countFiles stW.fs "file.txt" ∧
    countFiles (enable_desktop_disintegration envW "/px" stW).fs "file.txt" =
      countFiles stW.fs "file.txt" :=
  ⟨by decide,
   (c1_no_user_data_deleted envW "/px" stW "/sb" "file.txt" (by decide)).1,
   (c1_no_user_data_deleted envW "/px" stW "/sb" "file.txt" (by decide)).2.1⟩

/-- Claim C10: each of the three desktop-folder operations is a complete no-op
(the state — filesystem, markers and registry — is returned unchanged) when
the guest user-profile directory does not exist. -/
theorem c10_noop_without_user_dir (env : Env) (ppath : String) (st : PState) (d : String)
    (h : system_path_exists st.fs (user_dir env ppath) = false) :
    enable_desktop_integration_sandbox env ppath st d = st ∧
    enable_desktop_disintegration env ppath st = st ∧
    restore_desktop_integration env ppath st = st := by
  have hd : enable_desktop_disintegration env ppath st = st := by
    simp only [enable_desktop_disintegration]
    rw [if_neg]
    intro hc
    rw [h] at hc
    exact absurd hc.1 (by simp)
  refine ⟨?_, hd, ?_⟩
  · simp only [enable_desktop_integration_sandbox]
    split_ifs with hdeg hg
    · exact hd
    · rw [h] at hg
      exact absurd hg.1 (by simp)
    · rfl
  · simp only [restore_desktop_integration]
    rw [if_neg]
    intro hc
    rw [h] at hc
    exact absurd hc.1 (by simp)

/-- Witness for C10 at a concrete prefix with no profile directory. -/
theorem c10_noop_without_user_dir_witness :
    system_path_exists stMissing.fs (user_dir envW "/px") = false ∧
    enable_desktop_integration_sandbox envW "/px" stMissing "/sb" = stMissing ∧
    enable_desktop_disintegration envW "/px" stMissing = stMissing ∧
    restore_desktop_integration envW "/px" stMissing = stMissing := by
  refine ⟨by decide, ?_⟩
  exact c10_noop_without_user_dir envW "/px" stMissing "/sb" (by decide)

/-- Claim C9: `set_dpi 0` takes the clearing branch, exactly like
`set_dpi None`: `0` is falsy, so no DPI of zero is ever written. -/
theorem c9_set_dpi_zero (st : PState) : set_dpi st (some 0) = set_dpi st none := rfl

/-- Claim C7: a DLL override mode `"disabled"` writes the same registry state
as mode `""`; any mode that does not start with `dis` and lies outside the
valid tuple (such as `"bogus"`) performs no registry write at all. -/
theorem c7_override_dll_modes (rs : RegState) (dll : String) :
    override_dll rs dll "disabled" = override_dll rs dll "" ∧
    (∀ mode, strStartsWith mode "dis" = false → mode ∉ validDllModes →
      override_dll rs dll mode = rs) ∧
    override_dll rs dll "bogus" = rs := by
  refine ⟨rfl, ?_, rfl⟩
  intro mode h1 h2
  simp only [override_dll, h1, Bool.false_eq_true, if_false]
  rw [if_pos h2]

/-- Witness for C7 at the concrete invalid mode `"x"`. -/
theorem c7_override_dll_modes_witness :
    strStartsWith "x" "dis" = false ∧ "x" ∉ validDllModes ∧
    override_dll regW "d3d9" "x" = regW :=
  ⟨by decide, by decide, (c7_override_dll_modes regW "d3d9").2.1 "x" (by decide) (by decide)⟩

theorem empty_append_str (b : String) : "" ++ b = b := by
  apply String.ext
  rw [String.data_append]
  rfl

theorem os_path_join_eq_append (p b : String) : ∃ a, os_path_join p b = a ++ b := by
  unfold os_path_join
  split_ifs
  · exact ⟨"", (empty_append_str b).symm⟩
  · exact ⟨"", (empty_append_str b).symm⟩
  · exact ⟨p, rfl⟩
  · exact ⟨p ++ "/", rfl⟩

theorem hkcu_hklm_exclusive (key : String) (h : strStartsWith key hklmId = true) :
    strStartsWith key hkcuId = false := by
  by_contra hc
  have hc' : strStartsWith key hkcuId = true := by
    cases hh : strStartsWith key hkcuId
    · exact absurd hh hc
    · rfl
  unfold strStartsWith at h hc'
  have h1 := List.isPrefixOf_iff_prefix.mp h
  have h2 := List.isPrefixOf_iff_prefix.mp hc'
  rcases List.prefix_or_prefix_of_prefix h1 h2 with hp | hp
  · exact absurd hp (by decide)
  · exact absurd hp (by decide)

/-- Claim C6: the key router sends every address starting with the user-hive
identifier to the prefix's `user.reg` path and every address starting with the
machine-hive identifier to its `system.reg` path; on any other address both
`get_registry_path` and `get_key_path` fail with the contract error (an
`Except.error`, the model of the propagated `ValueError`). -/
theorem c6_key_router (ppath key : String) :
    (strStartsWith key hkcuId = true →
      get_registry_path ppath key = Except.ok (os_path_join ppath "user.reg") ∧
      ∃ a, os_path_join ppath "user.reg" = a ++ "user.reg") ∧
    (strStartsWith key hklmId = true →
      get_registry_path ppath key = Except.ok (os_path_join ppath "system.reg") ∧
      ∃ a, os_path_join ppath "system.reg" = a ++ "system.reg") ∧
    (strStartsWith key hkcuId = false → strStartsWith key hklmId = false →
      (∃ e, get_registry_path ppath key = Except.error e) ∧
      (∃ e, get_key_path key = Except.error e)) := by
  refine ⟨?_, ?_, ?_⟩
  · intro h
    unfold get_registry_path
    rw [if_pos h]
    exact ⟨rfl, os_path_join_eq_append ppath "user.reg"⟩
  · intro h
    unfold get_registry_path
    rw [if_neg (by rw [hkcu_hklm_exclusive key h]; simp), if_pos h]
    exact ⟨rfl, os_path_join_eq_append ppath "system.reg"⟩
  · intro h1 h2
    unfold get_registry_path get_key_path
    rw [if_neg (by rw [h1]; simp), if_neg (by rw [h2]; simp),
      if_neg (by rw [h1]; simp), if_neg (by rw [h2]; simp)]
    exact ⟨⟨_, rfl⟩, ⟨_, rfl⟩⟩

/-- Witness for C6: a user-hive address routes to `user.reg`, a machine-hive
address to `system.reg`, and `HKEY_USERS/x` makes both routers fail. -/
theorem c6_key_router_witness :
    get_registry_path "/px" "HKEY_CURRENT_USER/Software/Wine" =
      Except.ok (os_path_join "/px" "user.reg") ∧
    get_registry_path "/px" "HKEY_LOCAL_MACHINE/System" =
      Except.ok (os_path_join "/px" "system.reg") ∧
    (∃ e, get_registry_path "/px" "HKEY_USERS/x" = Except.error e) ∧
    (∃ e, get_key_path "HKEY_USERS/x" = Except.error e) :=
  ⟨((c6_key_router "/px" "HKEY_CURRENT_USER/Software/Wine").1 (by decide)).1,
   ((c6_key_router "/px" "HKEY_LOCAL_MACHINE/System").2.1 (by decide)).1,
   ((c6_key_router "/px" "HKEY_USERS/x").2.2 (by decide) (by decide)).1,
   ((c6_key_router "/px" "HKEY_USERS/x").2.2 (by decide) (by decide)).2⟩

theorem get_set_assignment (st : PState) (d : String) (h : d ≠ "") :
    get_desktop_integration_assignment (set_desktop_integration_assignment st d) = d := by
  unfold set_desktop_integration_assignment get_desktop_integration_assignment
  rw [if_pos h]

theorem sandbox_noop_of_marker (env : Env) (ppath : String) (st : PState) (d : String)
    (h3 : sandbox_resolved_dir env ppath d ≠ user_dir env ppath)
    (hm : get_desktop_integration_assignment st = sandbox_resolved_dir env ppath d) :
    enable_desktop_integration_sandbox env ppath st d = st := by
  simp only [enable_desktop_integration_sandbox]
  rw [if_neg h3, if_neg]
  intro hc
  exact hc.2 hm

/-- Counterexample to C2 as stated: on a prefix whose guest user-profile
directory does not exist, `EnableSandbox("/sb")` is a no-op, so afterwards the
assignment marker does not contain `"/sb"` even though `"/sb"` is a sandbox
directory distinct from the profile directory. -/
theorem c2_counterexample :
    ("/sb" ≠ user_dir envW "/px") ∧
    get_desktop_integration_assignment
        (enable_desktop_integration_sandbox envW "/px" stMissing "/sb") ≠ "/sb" := by
  constructor
  · decide
  · decide

/-- Claim C2 (amended): for every nonempty sandbox directory `d` that is its
own tilde-expansion and differs from the guest user-profile directory,
provided the profile directory exists, a second immediate
`EnableSandbox(d)` returns the state of the first unchanged (zero filesystem,
marker and registry mutations — the marker already equals `d`, so the body is
skipped), and after the first call the assignment marker equals `d`. -/
theorem c2_sandbox_idempotent (env : Env) (ppath : String) (st : PState) (d : String)
    (h1 : d ≠ "") (h2 : os_path_expanduser env.home d = d)
    (h3 : d ≠ user_dir env ppath)
    (h4 : system_path_exists st.fs (user_dir env ppath) = true) :
    enable_desktop_integration_sandbox env ppath
        (enable_desktop_integration_sandbox env ppath st d) d =
      enable_desktop_integration_sandbox env ppath st d ∧
    get_desktop_integration_assignment (enable_desktop_integration_sandbox env ppath st d) =
      d := by
  have hres : sandbox_resolved_dir env ppath d = d := by
    unfold sandbox_resolved_dir
    rw [if_pos h1]
    exact h2
  have hmark :
      get_desktop_integration_assignment (enable_desktop_integration_sandbox env ppath st d) =
        d := by
    simp only [enable_desktop_integration_sandbox, hres]
    rw [if_neg h3]
    split_ifs with hg
    · exact get_set_assignment _ d h1
    · rcases not_and_or.mp hg with ha | hb
      · exact absurd h4 ha
      · simpa using hb
  refine ⟨?_, hmark⟩
  apply sandbox_noop_of_marker
  · rw [hres]; exact h3
  · rw [hres]; exact hmark

/-- Witness for the amended C2 on a concrete prefix. -/
theorem c2_sandbox_idempotent_witness :
    ("/sb" ≠ "" ∧ os_path_expanduser envW.home "/sb" = "/sb" ∧ "/sb" ≠ user_dir envW "/px" ∧
      system_path_exists stW.fs (user_dir envW "/px") = true) ∧
    enable_desktop_integration_sandbox envW "/px"
        (enable_desktop_integration_sandbox envW "/px" stW "/sb") "/sb" =
      enable_desktop_integration_sandbox envW "/px" stW "/sb" ∧
    get_desktop_integration_assignment (enable_desktop_integration_sandbox envW "/px" stW "/sb") =
      "/sb" :=
  ⟨⟨by decide, by decide, by decide, by decide⟩,
   (c2_sandbox_idempotent envW "/px" stW "/sb" (by decide) (by decide) (by decide) (by decide)).1,
   (c2_sandbox_idempotent envW "/px" stW "/sb" (by decide) (by decide) (by decide) (by decide)).2⟩

/-- Counterexample to C8 as stated: the empty (falsy) target also degenerates
into disintegration, although its tilde-expansion (`""`) is not the guest
user-profile directory — on `stDeg` the degenerate call visibly performs the
disintegration. -/
theorem c8_counterexample :
    os_path_expanduser envW.home "" ≠ user_dir envW "/px" ∧
    sandbox_resolved_dir envW "/px" "" = user_dir envW "/px" ∧
    enable_desktop_integration_sandbox envW "/px" stDeg "" =
      enable_desktop_disintegration envW "/px" stDeg ∧
    enable_desktop_disintegration envW "/px" stDeg ≠ stDeg := by
  refine ⟨by decide, by decide, by decide, by decide⟩

/-- Claim C8 (amended): `enable_desktop_integration_sandbox(target)`
degenerates into `enable_desktop_disintegration()` exactly when the target is
empty (falsy) or its tilde-expansion equals the guest user-profile directory;
equality with any other directory (such as the host home directory) does not
trigger the degeneration. -/
theorem c8_degeneration_iff (env : Env) (ppath : String) (st : PState) (d : String) :
    (sandbox_resolved_dir env ppath d = user_dir env ppath ↔
      d = "" ∨ os_path_expanduser env.home d = user_dir env ppath) ∧
    (sandbox_resolved_dir env ppath d = user_dir env ppath →
      enable_desktop_integration_sandbox env ppath st d =
        enable_desktop_disintegration env ppath st) := by
  constructor
  · unfold sandbox_resolved_dir
    by_cases hd : d = ""
    · simp [hd]
    · simp [hd]
  · intro h
    simp only [enable_desktop_integration_sandbox]
    rw [if_pos h]

/-- Witness for the amended C8: the empty target satisfies the degeneration
condition and the call indeed equals disintegration. -/
theorem c8_degeneration_iff_witness :
    sandbox_resolved_dir envW "/px" "" = user_dir envW "/px" ∧
    enable_desktop_integration_sandbox envW "/px" stDeg "" =
      enable_desktop_disintegration envW "/px" stDeg :=
  ⟨((c8_degeneration_iff envW "/px" stDeg "").1).mpr (Or.inl rfl),
   (c8_degeneration_iff envW "/px" stDeg "").2
     (((c8_degeneration_iff envW "/px" stDeg "").1).mpr (Or.inl rfl))⟩

/-- Counterexample to C5 as stated: with the `Desktop` lookup failing but the
other four names present in the registry, `get_desktop_folders` returns the
four registry-derived names — the built-in defaults are not substituted. -/
theorem c5_counterexample :
    shellFolderName rsCE "Desktop" = none ∧
    get_desktop_folders rsCE ≠ DEFAULT_DESKTOP_FOLDERS ∧
    get_desktop_folders rsCE = ["Docs", "Mus", "Vid", "Pic"] := by
  refine ⟨by decide, by decide, by decide⟩

/-- Claim C5 (amended): `get_desktop_folders` skips each failed lookup; the
built-in defaults are substituted (for all five) exactly when every one of the
five lookups fails; otherwise the result is exactly the collected
registry-derived names, so a result is always either all-collected or
all-default, never a mixture of the two mechanisms. -/
theorem c5_all_or_nothing (rs : RegState) :
    ((∀ key ∈ DESKTOP_KEYS, shellFolderName rs key = none) →
      get_desktop_folders rs = DEFAULT_DESKTOP_FOLDERS) ∧
    (collectDesktopFolders rs ≠ [] →
      get_desktop_folders rs = collectDesktopFolders rs) ∧
    (get_desktop_folders rs = collectDesktopFolders rs ∨
      get_desktop_folders rs = DEFAULT_DESKTOP_FOLDERS) := by
  refine ⟨?_, ?_, ?_⟩
  · intro hall
    have hnil : collectDesktopFolders rs = [] := by
      unfold collectDesktopFolders
      exact List.filterMap_eq_nil_iff.mpr hall
    unfold get_desktop_folders
    rw [hnil]
    rfl
  · intro hne
    unfold get_desktop_folders
    rw [if_neg (by simpa [List.isEmpty_iff] using hne)]
  · by_cases hne : collectDesktopFolders rs = []
    · right
      unfold get_desktop_folders
      rw [hne]
      rfl
    · left
      unfold get_desktop_folders
      rw [if_neg (by simpa [List.isEmpty_iff] using hne)]

/-- Witness for the amended C5: a partially-failing registry returns exactly
its collected names, and a fully-failing one returns the defaults. -/
theorem c5_all_or_nothing_witness :
    (collectDesktopFolders rsCE ≠ [] ∧
      get_desktop_folders rsCE = collectDesktopFolders rsCE) ∧
    ((∀ key ∈ DESKTOP_KEYS, shellFolderName regW key = none) ∧
      get_desktop_folders regW = DEFAULT_DESKTOP_FOLDERS) :=
  ⟨⟨by decide, (c5_all_or_nothing rsCE).2.1 (by decide)⟩,
   ⟨by decide, (c5_all_or_nothing regW).1 (by decide)⟩⟩

theorem hiveQuery_hiveSet_same (h : Hive) (kp sk : String) (v : RegValue) :
    hiveQuery (hiveSet h kp sk v) kp sk = some v := by
  induction h with
  | nil => simp [hiveSet, hiveQuery]
  | cons hd r ih =>
      obtain ⟨⟨k, s⟩, w⟩ := hd
      by_cases hks : k = kp ∧ s = sk
      · simp only [hiveSet, if_pos hks]
        exact ih
      · simp only [hiveSet, if_neg hks, hiveQuery]
        exact ih

theorem hiveQuery_hiveSet_ne (h : Hive) (kp sk kp' sk' : String) (v : RegValue)
    (hne : ¬ (kp = kp' ∧ sk = sk')) :
    hiveQuery (hiveSet h kp sk v) kp' sk' = hiveQuery h kp' sk' := by
  induction h with
  | nil =>
      simp only [hiveSet, hiveQuery]
      rw [if_neg hne]
  | cons hd r ih =>
      obtain ⟨⟨k, s⟩, w⟩ := hd
      by_cases hks : k = kp ∧ s = sk
      · simp only [hiveSet, if_pos hks, hiveQuery]
        rw [ih, if_neg]
        intro hc
        exact hne ⟨hks.1.symm.trans hc.1, hks.2.symm.trans hc.2⟩
      · simp only [hiveSet, if_neg hks, hiveQuery]
        by_cases hks' : k = kp' ∧ s = sk'
        · rw [if_pos hks', if_pos hks']
        · rw [if_neg hks', if_neg hks', ih]

theorem assign_dpi_eq (rs : RegState) (n : Int) :
    assign_dpi rs n =
      RegState.mk
        (hiveSet (hiveSet rs.userReg "Software/Wine/Fonts" "LogPixels" (RegValue.int n))
          "Control Panel/Desktop" "LogPixels" (RegValue.int n))
        rs.systemReg := rfl

theorem get_registry_key_fonts (rs : RegState) :
    get_registry_key rs dpiFontsKey "LogPixels" =
      hiveQuery rs.userReg "Software/Wine/Fonts" "LogPixels" := rfl

theorem get_registry_key_desktop (rs : RegState) :
    get_registry_key rs dpiDesktopKey "LogPixels" =
      hiveQuery rs.userReg "Control Panel/Desktop" "LogPixels" := rfl

theorem assign_dpi_queries (rs : RegState) (n : Int) :
    get_registry_key (assign_dpi rs n) dpiFontsKey "LogPixels" = some (RegValue.int n) ∧
    get_registry_key (assign_dpi rs n) dpiDesktopKey "LogPixels" = some (RegValue.int n) := by
  rw [assign_dpi_eq, get_registry_key_fonts, get_registry_key_desktop]
  constructor
  · rw [hiveQuery_hiveSet_ne _ _ _ _ _ _ (by decide)]
    exact hiveQuery_hiveSet_same _ _ _ _
  · exact hiveQuery_hiveSet_same _ _ _ _

/-- Claim C4: with the DPI marker file present, `set_dpi` with a falsy value
removes the marker in all cases, and it resets both registry locations to 96
exactly when both currently hold the integer recorded in the marker; if the
marker is non-numeric or either location was changed out-of-band, the
registry is left untouched. -/
theorem c4_clear_dpi (st : PState) (s : String) (hm : st.dpiMarker = some s) :
    (set_dpi st none).dpiMarker = none ∧
    (∀ n, pyToInt s = some n →
      get_registry_key st.reg dpiFontsKey "LogPixels" = some (RegValue.int n) →
      get_registry_key st.reg dpiDesktopKey "LogPixels" = some (RegValue.int n) →
      get_registry_key (set_dpi st none).reg dpiFontsKey "LogPixels" =
          some (RegValue.int 96) ∧
      get_registry_key (set_dpi st none).reg dpiDesktopKey "LogPixels" =
          some (RegValue.int 96)) ∧
    ((pyToInt s = none ∨
        ∃ n, pyToInt s = some n ∧
          (get_registry_key st.reg dpiFontsKey "LogPixels" ≠ some (RegValue.int n) ∨
           get_registry_key st.reg dpiDesktopKey "LogPixels" ≠ some (RegValue.int n))) →
      (set_dpi st none).reg = st.reg) := by
  have hsome : st.dpiMarker.isSome = true := by rw [hm]; rfl
  refine ⟨?_, ?_, ?_⟩
  · show (set_dpi_clear st).dpiMarker = none
    unfold set_dpi_clear
    rw [if_pos hsome]
    split_ifs <;> rfl
  · intro n hn h1 h2
    have hass : is_lutris_dpi_assigned st = true := by
      unfold is_lutris_dpi_assigned
      rw [hm]
      simp [hn, dpiKeyPaths, h1, h2]
    show _ ∧ _
    have hreg : (set_dpi st none).reg = assign_dpi st.reg 96 := by
      show (set_dpi_clear st).reg = _
      unfold set_dpi_clear
      rw [if_pos hsome, if_pos hass]
    rw [hreg]
    exact assign_dpi_queries st.reg 96
  · intro hcase
    have hass : is_lutris_dpi_assigned st = false := by
      unfold is_lutris_dpi_assigned
      rw [hm]
      rcases hcase with hno | ⟨n, hn, hmis⟩
      · simp [hno]
      · rcases hmis with hmis | hmis <;> simp [hn, dpiKeyPaths, hmis]
    show (set_dpi_clear st).reg = st.reg
    unfold set_dpi_clear
    rw [if_pos hsome, if_neg (by simp [hass])]

/-- Witness for C4: after `set_dpi 120`, clearing with no external change
resets both locations to 96 and removes the marker. -/
theorem c4_clear_dpi_witness :
    stDpi.dpiMarker = some "120" ∧
    (set_dpi stDpi none).dpiMarker = none ∧
    get_registry_key (set_dpi stDpi none).reg dpiFontsKey "LogPixels" =
      some (RegValue.int 96) ∧
    get_registry_key (set_dpi stDpi none).reg dpiDesktopKey "LogPixels" =
      some (RegValue.int 96) :=
  ⟨rfl, (c4_clear_dpi stDpi "120" rfl).1,
   ((c4_clear_dpi stDpi "120" rfl).2.1 120 (by decide) (by decide) (by decide)).1,
   ((c4_clear_dpi stDpi "120" rfl).2.1 120 (by decide) (by decide) (by decide)).2⟩

theorem os_rename_frame (fs : FS) (src dst q : String) (hs : q ≠ src) (hd : q ≠ dst) :
    fslookup (os_rename fs src dst) q = fslookup fs q := by
  unfold os_rename
  cases h1 : fslookup fs src with
  | none => rfl
  | some e =>
      cases e with
      | symlink t =>
          cases h2 : fslookup fs dst with
          | none =>
              show fslookup (fsinsert (fserase fs src) dst (Entry.symlink t)) q = fslookup fs q
              rw [fslookup_fsinsert_ne _ _ _ _ hd, fslookup_fserase_ne _ _ _ hs]
          | some e2 => cases e2 <;> rfl
      | dir c =>
          cases h2 : fslookup fs dst with
          | none =>
              show fslookup (fsinsert (fserase fs src) dst (Entry.dir c)) q = fslookup fs q
              rw [fslookup_fsinsert_ne _ _ _ _ hd, fslookup_fserase_ne _ _ _ hs]
          | some e2 =>
              cases e2 with
              | symlink t2 => rfl
              | dir l2 =>
                  cases l2 with
                  | nil =>
                      show fslookup (fsinsert (fserase fs src) dst (Entry.dir c)) q =
                        fslookup fs q
                      rw [fslookup_fsinsert_ne _ _ _ _ hd, fslookup_fserase_ne _ _ _ hs]
                  | cons x xs => rfl

theorem os_makedirs_frame (fs : FS) (p q : String) (h : q ≠ p) :
    fslookup (os_makedirs fs p) q = fslookup fs q := by
  unfold os_makedirs
  cases hl : fslookup fs p with
  | none => rw [fslookup_fsinsert_ne _ _ _ _ h]
  | some e => rfl

theorem disintegrationStep_frame (u : String) (fs : FS) (item q : String)
    (h1 : os_path_join u item ≠ q) (h2 : os_path_join u item ++ ".winecfg" ≠ q) :
    fslookup (disintegrationStep u fs item) q = fslookup fs q := by
  unfold disintegrationStep
  by_cases hlink : os_path_islink fs (os_path_join u item) = true
  · rw [if_neg (not_not_intro hlink)]
    obtain ⟨t, ht⟩ := (islink_iff _ _).mp hlink
    rw [remove_desktop_folder_symlink fs _ _ t ht]
    dsimp only
    split_ifs with hdir
    · rw [os_rename_frame _ _ _ _ (Ne.symm h2) (Ne.symm h1),
        fslookup_fserase_ne _ _ _ (Ne.symm h1)]
    · rw [os_makedirs_frame _ _ _ (Ne.symm h1), fslookup_fserase_ne _ _ _ (Ne.symm h1)]
  · rw [if_pos hlink]

theorem disintegrationFold_frame (u : String) (items : List String) (fs : FS) (q : String)
    (h : ∀ it ∈ items, os_path_join u it ≠ q ∧ os_path_join u it ++ ".winecfg" ≠ q) :
    fslookup (items.foldl (disintegrationStep u) fs) q = fslookup fs q := by
  induction items generalizing fs with
  | nil => rfl
  | cons a r ih =>
      rw [List.foldl_cons, ih _ (fun it hit => h it (List.mem_cons_of_mem a hit))]
      exact disintegrationStep_frame u fs a q (h a (List.mem_cons_self a r)).1
        (h a (List.mem_cons_self a r)).2

theorem disintegrationStep_skip (u : String) (fs : FS) (item : String)
    (h : os_path_islink fs (os_path_join u item) = false) :
    disintegrationStep u fs item = fs := by
  unfold disintegrationStep
  rw [if_pos (by simp [h])]

theorem disintegrationStep_restore (u : String) (fs : FS) (item t : String) (c : List String)
    (hl : fslookup fs (os_path_join u item) = some (Entry.symlink t))
    (hb : fslookup fs (os_path_join u item ++ ".winecfg") = some (Entry.dir c)) :
    fslookup (disintegrationStep u fs item) (os_path_join u item) = some (Entry.dir c) ∧
    fslookup (disintegrationStep u fs item) (os_path_join u item ++ ".winecfg") = none := by
  have hlink : os_path_islink fs (os_path_join u item) = true := (islink_iff _ _).mpr ⟨t, hl⟩
  have hps : os_path_join u item ++ ".winecfg" ≠ os_path_join u item :=
    append_winecfg_ne (os_path_join u item)
  unfold disintegrationStep
  rw [if_neg (not_not_intro hlink), remove_desktop_folder_symlink fs _ _ t hl]
  have h1 : fslookup (fserase fs (os_path_join u item)) (os_path_join u item ++ ".winecfg") =
      some (Entry.dir c) := by
    rw [fslookup_fserase_ne _ _ _ hps]
    exact hb
  rw [if_pos (isdir_of_lookup_dir _ _ _ h1)]
  unfold os_rename
  rw [h1, fslookup_fserase_self]
  constructor
  · exact fslookup_fsinsert_self _ _ _
  · rw [fslookup_fsinsert_ne _ _ _ _ hps]
    exact fslookup_fserase_self _ _

theorem disintegrationStep_fresh (u : String) (fs : FS) (item t : String)
    (hl : fslookup fs (os_path_join u item) = some (Entry.symlink t))
    (hb : fslookup fs (os_path_join u item ++ ".winecfg") = none) :
    fslookup (disintegrationStep u fs item) (os_path_join u item) = some (Entry.dir []) ∧
    fslookup (disintegrationStep u fs item) (os_path_join u item ++ ".winecfg") = none := by
  have hlink : os_path_islink fs (os_path_join u item) = true := (islink_iff _ _).mpr ⟨t, hl⟩
  have hps : os_path_join u item ++ ".winecfg" ≠ os_path_join u item :=
    append_winecfg_ne (os_path_join u item)
  unfold disintegrationStep
  rw [if_neg (not_not_intro hlink), remove_desktop_folder_symlink fs _ _ t hl]
  have h1 : fslookup (fserase fs (os_path_join u item)) (os_path_join u item ++ ".winecfg") =
      none := by
    rw [fslookup_fserase_ne _ _ _ hps]
    exact hb
  rw [if_neg (by rw [isdir_of_lookup_none _ _ h1]; simp)]
  unfold os_makedirs
  rw [fslookup_fserase_self]
  constructor
  · exact fslookup_fsinsert_self _ _ _
  · rw [fslookup_fsinsert_ne _ _ _ _ hps]
    exact h1

/-- Claim C3 (amended): when the guest user-profile directory exists, the
assignment marker differs from it, and the guest folder paths are pairwise
distinct with none equal to another's `.winecfg` backup path,
`enable_desktop_disintegration` leaves every guest folder path that is not a
symlink untouched; for every symlink path it removes the link and then
renames an existing `<path>.winecfg` backup directory back into place
(restoring its contents and clearing the backup path), or creates a fresh
empty directory when nothing occupies the backup path; finally it sets the
assignment marker to the guest user-profile directory. -/
theorem c3_disintegration_restores (env : Env) (ppath : String) (st : PState)
    (hex : system_path_exists st.fs (user_dir env ppath) = true)
    (hm : get_desktop_integration_assignment st ≠ user_dir env ppath)
    (hnd : ((get_desktop_folders st.reg).map (os_path_join (user_dir env ppath))).Nodup)
    (hna : ∀ q ∈ (get_desktop_folders st.reg).map (os_path_join (user_dir env ppath)),
      q ++ ".winecfg" ∉ (get_desktop_folders st.reg).map (os_path_join (user_dir env ppath))) :
    (∀ item ∈ get_desktop_folders st.reg,
      (os_path_islink st.fs (os_path_join (user_dir env ppath) item) = false →
        fslookup (enable_desktop_disintegration env ppath st).fs
            (os_path_join (user_dir env ppath) item) =
          fslookup st.fs (os_path_join (user_dir env ppath) item)) ∧
      (os_path_islink st.fs (os_path_join (user_dir env ppath) item) = true →
        (∀ c, fslookup st.fs (os_path_join (user_dir env ppath) item ++ ".winecfg") =
              some (Entry.dir c) →
          fslookup (enable_desktop_disintegration env ppath st).fs
              (os_path_join (user_dir env ppath) item) = some (Entry.dir c) ∧
          fslookup (enable_desktop_disintegration env ppath st).fs
              (os_path_join (user_dir env ppath) item ++ ".winecfg") = none) ∧
        (fslookup st.fs (os_path_join (user_dir env ppath) item ++ ".winecfg") = none →
          fslookup (enable_desktop_disintegration env ppath st).fs
              (os_path_join (user_dir env ppath) item) = some (Entry.dir [])))) ∧
    get_desktop_integration_assignment (enable_desktop_disintegration env ppath st) =
      user_dir env ppath := by
  have hst' : enable_desktop_disintegration env ppath st =
      set_desktop_integration_assignment
        (PState.mk
          ((get_desktop_folders st.reg).foldl (disintegrationStep (user_dir env ppath)) st.fs)
          st.integrationMarker st.dpiMarker st.reg)
        (user_dir env ppath) := by
    simp only [enable_desktop_disintegration]
    rw [if_pos ⟨hex, hm⟩]
  have hfs : (enable_desktop_disintegration env ppath st).fs =
      (get_desktop_folders st.reg).foldl (disintegrationStep (user_dir env ppath)) st.fs := by
    rw [hst', set_assignment_fs]
  refine ⟨?_, by rw [hst']; exact get_set_assignment _ _ (user_dir_ne_empty env ppath none)⟩
  intro item hitem
  obtain ⟨l1, l2, hsplit⟩ := List.append_of_mem hitem
  have hmemp : os_path_join (user_dir env ppath) item ∈
      (get_desktop_folders st.reg).map (os_path_join (user_dir env ppath)) :=
    List.mem_map_of_mem _ hitem
  have hpathseq : (get_desktop_folders st.reg).map (os_path_join (user_dir env ppath)) =
      l1.map (os_path_join (user_dir env ppath)) ++
        os_path_join (user_dir env ppath) item ::
          l2.map (os_path_join (user_dir env ppath)) := by
    rw [hsplit, List.map_append, List.map_cons]
  rw [hpathseq] at hnd
  rcases List.nodup_append.mp hnd with ⟨hnd1, hnd2, hdisj⟩
  have hpnotl1 : os_path_join (user_dir env ppath) item ∉
      l1.map (os_path_join (user_dir env ppath)) :=
    fun hh => hdisj hh (List.mem_cons_self _ _)
  have hpnotl2 : os_path_join (user_dir env ppath) item ∉
      l2.map (os_path_join (user_dir env ppath)) :=
    (List.nodup_cons.mp hnd2).1
  have hkey : ∀ it, (it ∈ l1 ∨ it ∈ l2) →
      os_path_join (user_dir env ppath) it ≠ os_path_join (user_dir env ppath) item ∧
      os_path_join (user_dir env ppath) it ++ ".winecfg" ≠
        os_path_join (user_dir env ppath) item ∧
      os_path_join (user_dir env ppath) it ≠
        os_path_join (user_dir env ppath) item ++ ".winecfg" ∧
      os_path_join (user_dir env ppath) it ++ ".winecfg" ≠
        os_path_join (user_dir env ppath) item ++ ".winecfg" := by
    intro it hit
    have hitfold : it ∈ get_desktop_folders st.reg := by
      rw [hsplit]
      rcases hit with h | h
      · exact List.mem_append_left _ h
      · exact List.mem_append_right _ (List.mem_cons_of_mem _ h)
    have hitmem : os_path_join (user_dir env ppath) it ∈
        (get_desktop_folders st.reg).map (os_path_join (user_dir env ppath)) :=
      List.mem_map_of_mem _ hitfold
    have hne1 : os_path_join (user_dir env ppath) it ≠
        os_path_join (user_dir env ppath) item := by
      intro hh
      rcases hit with h | h
      · exact hpnotl1 (hh ▸ List.mem_map_of_mem _ h)
      · exact hpnotl2 (hh ▸ List.mem_map_of_mem _ h)
    refine ⟨hne1, ?_, ?_, ?_⟩
    · intro hh
      exact hna _ hitmem (by rw [hh]; exact hmemp)
    · intro hh
      exact hna _ hmemp (by rw [← hh]; exact hitmem)
    · intro hh
      exact hne1 (winecfg_right_cancel _ _ hh)
  have hfold : (get_desktop_folders st.reg).foldl
      (disintegrationStep (user_dir env ppath)) st.fs =
      l2.foldl (disintegrationStep (user_dir env ppath))
        (disintegrationStep (user_dir env ppath)
          (l1.foldl (disintegrationStep (user_dir env ppath)) st.fs) item) := by
    rw [hsplit, List.foldl_append, List.foldl_cons]
  have hmid_p : fslookup (l1.foldl (disintegrationStep (user_dir env ppath)) st.fs)
      (os_path_join (user_dir env ppath) item) =
      fslookup st.fs (os_path_join (user_dir env ppath) item) :=
    disintegrationFold_frame _ l1 st.fs _
      (fun it hit => ⟨(hkey it (Or.inl hit)).1, (hkey it (Or.inl hit)).2.1⟩)
  have hmid_safe : fslookup (l1.foldl (disintegrationStep (user_dir env ppath)) st.fs)
      (os_path_join (user_dir env ppath) item ++ ".winecfg") =
      fslookup st.fs (os_path_join (user_dir env ppath) item ++ ".winecfg") :=
    disintegrationFold_frame _ l1 st.fs _
      (fun it hit => ⟨(hkey it (Or.inl hit)).2.2.1, (hkey it (Or.inl hit)).2.2.2⟩)
  have hl2_p : ∀ fsX : FS, fslookup (l2.foldl (disintegrationStep (user_dir env ppath)) fsX)
      (os_path_join (user_dir env ppath) item) =
      fslookup fsX (os_path_join (user_dir env ppath) item) :=
    fun fsX => disintegrationFold_frame _ l2 fsX _
      (fun it hit => ⟨(hkey it (Or.inr hit)).1, (hkey it (Or.inr hit)).2.1⟩)
  have hl2_safe : ∀ fsX : FS, fslookup (l2.foldl (disintegrationStep (user_dir env ppath)) fsX)
      (os_path_join (user_dir env ppath) item ++ ".winecfg") =
      fslookup fsX (os_path_join (user_dir env ppath) item ++ ".winecfg") :=
    fun fsX => disintegrationFold_frame _ l2 fsX _
      (fun it hit => ⟨(hkey it (Or.inr hit)).2.2.1, (hkey it (Or.inr hit)).2.2.2⟩)
  refine ⟨?_, fun hl => ⟨fun c hb => ⟨?_, ?_⟩, fun hb => ?_⟩⟩
  · intro hnl
    have hnl' : os_path_islink (l1.foldl (disintegrationStep (user_dir env ppath)) st.fs)
        (os_path_join (user_dir env ppath) item) = false := by
      unfold os_path_islink
      rw [hmid_p]
      unfold os_path_islink at hnl
      exact hnl
    rw [hfs, hfold, disintegrationStep_skip _ _ _ hnl', hl2_p, hmid_p]
  · obtain ⟨t, ht⟩ := (islink_iff _ _).mp hl
    rw [hfs, hfold, hl2_p]
    exact (disintegrationStep_restore _ _ item t c (by rw [hmid_p]; exact ht)
      (by rw [hmid_safe]; exact hb)).1
  · obtain ⟨t, ht⟩ := (islink_iff _ _).mp hl
    rw [hfs, hfold, hl2_safe]
    exact (disintegrationStep_restore _ _ item t c (by rw [hmid_p]; exact ht)
      (by rw [hmid_safe]; exact hb)).2
  · obtain ⟨t, ht⟩ := (islink_iff _ _).mp hl
    rw [hfs, hfold, hl2_p]
    exact (disintegrationStep_fresh _ _ item t (by rw [hmid_p]; exact ht)
      (by rw [hmid_safe]; exact hb)).1

/-- Counterexample to C3 as stated: on a prefix whose guest user-profile
directory does not exist, the assignment marker differs from the profile
directory, yet disintegration is a no-op and in particular does not set the
marker to the guest user-profile directory. -/
theorem c3_counterexample :
    get_desktop_integration_assignment stMissing ≠ user_dir envW "/px" ∧
    enable_desktop_disintegration envW "/px" stMissing = stMissing ∧
    get_desktop_integration_assignment (enable_desktop_disintegration envW "/px" stMissing) ≠
      user_dir envW "/px" := by
  refine ⟨by decide, by decide, by decide⟩

/-- Witness for the amended C3 on a concrete sandboxed prefix: the linked
`Desktop` becomes a fresh empty directory, the linked `Documents` gets its
backup restored (and the backup path cleared), the absent `Music` is left
untouched, and the marker ends at the profile directory. -/
theorem c3_disintegration_restores_witness :
    fslookup (enable_desktop_disintegration envW "/px" stC3).fs
        (os_path_join (user_dir envW "/px") "Desktop") = some (Entry.dir []) ∧
    fslookup (enable_desktop_disintegration envW "/px" stC3).fs
        (os_path_join (user_dir envW "/px") "Documents") = some (Entry.dir ["old.txt"]) ∧
    fslookup (enable_desktop_disintegration envW "/px" stC3).fs
        (os_path_join (user_dir envW "/px") "Documents" ++ ".winecfg") = none ∧
    fslookup (enable_desktop_disintegration envW "/px" stC3).fs
        (os_path_join (user_dir envW "/px") "Music") = none ∧
    get_desktop_integration_assignment (enable_desktop_disintegration envW "/px" stC3) =
      user_dir envW "/px" :=
  ⟨((c3_disintegration_restores envW "/px" stC3 (by decide) (by decide) (by decide)
        (by decide)).1 "Desktop" (by decide)).2 (by decide) |>.2 (by decide),
   (((c3_disintegration_restores envW "/px" stC3 (by decide) (by decide) (by decide)
        (by decide)).1 "Documents" (by decide)).2 (by decide) |>.1 ["old.txt"] (by decide)).1,
   (((c3_disintegration_restores envW "/px" stC3 (by decide) (by decide) (by decide)
        (by decide)).1 "Documents" (by decide)).2 (by decide) |>.1 ["old.txt"] (by decide)).2,
   (((c3_disintegration_restores envW "/px" stC3 (by decide) (by decide) (by decide)
        (by decide)).1 "Music" (by decide)).1 (by decide)).trans (by decide),
   (c3_disintegration_restores envW "/px" stC3 (by decide) (by decide) (by decide)
        (by decide)).2⟩
